import Mathlib

/-!
Shallow embedding of the core scan-output parsing and pipeline logic of
the drweb antivirus plugin (src/scan.go), together with theorems checking
the natural-language specification's claims against it.

Strings are modelled by Lean `String`; the Go standard-library helpers
used by the code (`strings.Contains`, `strings.TrimPrefix`,
`strings.TrimSpace`, `strings.Split(s, "\n")`) are re-implemented below on
`List Char` so that every definition is executable and decidable.
-/

/-- ASCII whitespace test matching the characters `strings.TrimSpace`
removes for the ASCII inputs this development deals with. -/
def goIsSpace (c : Char) : Bool :=
  c == ' ' || c == '\t' || c == '\n' || c == '\x0b' || c == '\x0c' || c == '\r'

/-- Whether the first list is a leading segment of the second. -/
def isPrefOf : List Char → List Char → Bool
  | [], _ => true
  | _ :: _, [] => false
  | a :: as, b :: bs => a == b && isPrefOf as bs

/-- Whether `pat` occurs as a contiguous segment of the second list
(Go `strings.Contains`). -/
def containsSub (pat : List Char) : List Char → Bool
  | [] => pat.isEmpty
  | c :: rest => isPrefOf pat (c :: rest) || containsSub pat rest

/-- Go `strings.Contains s pat`. -/
def gContains (s pat : String) : Bool := containsSub pat.data s.data

/-- Go `strings.TrimPrefix s p`: drop a leading `p` when present, else
return `s` unchanged. -/
def gTrimPref (s p : String) : String :=
  if isPrefOf p.data s.data then ⟨s.data.drop p.data.length⟩ else s

/-- Go `strings.TrimSpace`: trim whitespace from both ends. -/
def gTrimSpace (s : String) : String :=
  ⟨((s.data.dropWhile goIsSpace).reverse.dropWhile goIsSpace).reverse⟩

/-- Split a character list at every newline (Go `strings.Split` with
separator `"\n"`): always returns at least one (possibly empty) piece. -/
def splitNl : List Char → List (List Char)
  | [] => [[]]
  | c :: rest =>
    match splitNl rest with
    | [] => [[]]
    | l :: ls => if c == '\n' then [] :: l :: ls else (c :: l) :: ls

/-- Go `strings.Split(s, "\n")`. -/
def splitNL (s : String) : List String := (splitNl s.data).map String.mk

/-- The `ResultsData` struct of src/scan.go; Go zero values are the field
defaults. -/
structure ResultsData where
  Infected : Bool := false
  Result : String := ""
  Engine : String := ""
  Database : String := ""
  Updated : String := ""
  MarkDown : String := ""
  Error : String := ""
deriving DecidableEq, Repr

/-- The scan-transcript loop of `ParseDrWEBOutput` (src/scan.go:143-169):
skip empty lines, `break` on a line containing "- Ok", otherwise mark
infected and record the line with the `path ++ " - "` leading marker
removed and whitespace trimmed. -/
def scanLoop (path : String) : List String → ResultsData → ResultsData
  | [], r => r
  | line :: rest, r =>
    if line = "" then scanLoop path rest r
    else if gContains line "- Ok" then r
    else scanLoop path rest
      { r with Infected := true,
               Result := gTrimSpace (gTrimPref line (path ++ " - ")) }

/-- One iteration of the metadata loop of `ParseDrWEBOutput`
(src/scan.go:177-186). -/
def baseStep (line : String) (r : ResultsData) : ResultsData :=
  if line = "" then r
  else
    let r1 := if gContains line "Core engine:" then
      { r with Engine := gTrimSpace (gTrimPref line "Core engine:") } else r
    if gContains line "Virus base records:" then
      { r1 with Database := gTrimSpace (gTrimPref line "Virus base records:") } else r1

/-- The metadata loop of `ParseDrWEBOutput` (src/scan.go:177-186). -/
def baseLoop : List String → ResultsData → ResultsData
  | [], r => r
  | line :: rest, r => baseLoop rest (baseStep line r)

/-- `ParseDrWEBOutput` of src/scan.go. The scanned path (Go global
`path`) and the environment-derived values `getDrWebVersion()` and
`getUpdatedDate()` are explicit parameters; the scan error is an
`Option String` carrying the Go error's text. -/
def ParseDrWEBOutput (path engineVer updated drwebOut baseInfo : String)
    (drwebErr : Option String) : ResultsData :=
  match drwebErr with
  | some msg =>
    if msg = "exit status 119" then { Error := "ScanEngine is not available" }
    else { Error := msg }
  | none =>
    baseLoop (splitNL baseInfo)
      (scanLoop path (splitNL drwebOut)
        { Infected := false, Engine := engineVer, Updated := updated })

/-- The textual license classification of `didLicenseExpire`
(src/scan.go:272-283), applied to the license-query sub-command's output
once the command itself has succeeded. -/
def didLicenseExpire (lOut : String) : Bool :=
  if gContains lOut "No license" then true
  else if gContains lOut "expires" then false
  else true

/-- How many times `AvScan` (src/scan.go:89-94) invokes `updateLicense`
in one run, as a function of the license-query output: the renewal runs
exactly when `didLicenseExpire` returned true. -/
def licenseGuardRenewals (licOut : String) : Nat :=
  if didLicenseExpire licOut then 1 else 0

/-- Renewal invocations over two consecutive License Guard runs whose
license-query outputs are `o1` and `o2`. -/
def licenseGuardTwiceRenewals (o1 o2 : String) : Nat :=
  licenseGuardRenewals o1 + licenseGuardRenewals o2

/-- The scan-with-retry step of `AvScan` (src/scan.go:104-111). Each
attempt is a pair of captured output and optional error text; the result
pairs the (output, error) handed on to the parser with the number of
times the scan command ran. -/
def avScanScanPhase (first second : String × Option String) :
    (String × Option String) × Nat :=
  match first with
  | (out, none) => ((out, none), 1)
  | (_, some _) => (second, 2)

/-- The `assert` helper of src/scan.go:67-78: a non-nil error is logged
fatally (aborting the process) unless its text is "exit status 13". -/
def assertIsFatal : Option String → Bool
  | none => false
  | some msg => msg != "exit status 13"

/-- The dataflow of `AvScan` (src/scan.go:104-118) from the scan attempts
to the parsed result: the (output, error) pair selected by the retry step
is passed to `ParseDrWEBOutput` unchanged, together with the metadata
transcript. -/
def AvScanModel (path engineVer updated : String)
    (first second : String × Option String) (baseInfo : String) : ResultsData :=
  ParseDrWEBOutput path engineVer updated (avScanScanPhase first second).1.1
    baseInfo (avScanScanPhase first second).1.2

/-! ### Helper lemmas about the scan-transcript loop -/

/-- A line containing the clean marker is non-empty. -/
theorem ne_empty_of_contains_ok {m : String} (h : gContains m "- Ok" = true) :
    m ≠ "" := by
  intro he
  subst he
  exact absurd h (by decide)

/-- Processing a clean-marker line breaks the loop at once. -/
theorem scanLoop_cons_break (path m : String) (suf : List String)
    (r : ResultsData) (hm : gContains m "- Ok" = true) :
    scanLoop path (m :: suf) r = r := by
  have hne := ne_empty_of_contains_ok hm
  simp [scanLoop, hne, hm]

/-- Lines standing after a clean-marker line never influence the loop. -/
theorem scanLoop_marker_stable (path m : String) (hm : gContains m "- Ok" = true) :
    ∀ (pre suf suf2 : List String) (r : ResultsData),
      scanLoop path (pre ++ m :: suf) r = scanLoop path (pre ++ m :: suf2) r := by
  intro pre
  induction pre with
  | nil =>
    intro suf suf2 r
    rw [List.nil_append, List.nil_append, scanLoop_cons_break path m suf r hm,
      scanLoop_cons_break path m suf2 r hm]
  | cons l pre ih =>
    intro suf suf2 r
    by_cases hl : l = ""
    · simp only [List.cons_append, scanLoop, if_pos hl]
      exact ih suf suf2 r
    · by_cases hc : gContains l "- Ok" = true
      · simp only [List.cons_append, scanLoop, if_neg hl, hc, if_true]
      · simp only [List.cons_append, scanLoop, if_neg hl, hc, Bool.false_eq_true,
          if_false]
        exact ih suf suf2 _

/-- When every line before the clean-marker line is empty or itself
carries the marker, the loop returns its start state unchanged. -/
theorem scanLoop_clean (path m : String) (hm : gContains m "- Ok" = true) :
    ∀ (pre suf : List String) (r : ResultsData),
      (∀ l ∈ pre, l = "" ∨ gContains l "- Ok" = true) →
      scanLoop path (pre ++ m :: suf) r = r := by
  intro pre
  induction pre with
  | nil =>
    intro suf r _
    rw [List.nil_append]
    exact scanLoop_cons_break path m suf r hm
  | cons l pre ih =>
    intro suf r hpre
    rcases hpre l (List.mem_cons_self l pre) with hl | hl
    · simp only [List.cons_append, scanLoop, if_pos hl]
      exact ih suf r fun x hx => hpre x (List.mem_cons_of_mem l hx)
    · have hne := ne_empty_of_contains_ok hl
      simp only [List.cons_append, scanLoop, if_neg hne, hl, if_true]

/-- Over a marker-free leading segment the loop composes. -/
theorem scanLoop_no_marker (path : String) :
    ∀ (pre rest : List String) (r : ResultsData),
      (∀ l ∈ pre, gContains l "- Ok" = false) →
      scanLoop path (pre ++ rest) r = scanLoop path rest (scanLoop path pre r) := by
  intro pre
  induction pre with
  | nil => intro rest r _; rfl
  | cons l pre ih =>
    intro rest r hpre
    have hl := hpre l (List.mem_cons_self l pre)
    have hrest := fun x hx => hpre x (List.mem_cons_of_mem l hx)
    by_cases he : l = ""
    · simp only [List.cons_append, scanLoop, if_pos he]
      exact ih rest r hrest
    · simp only [List.cons_append, scanLoop, if_neg he, hl, Bool.false_eq_true,
        if_false]
      exact ih rest _ hrest

/-- A run of empty lines leaves the loop state unchanged. -/
theorem scanLoop_empties (path : String) :
    ∀ (emp : List String) (r : ResultsData), (∀ l ∈ emp, l = "") →
      scanLoop path emp r = r := by
  intro emp
  induction emp with
  | nil => intro r _; rfl
  | cons l emp ih =>
    intro r hemp
    have hl := hemp l (List.mem_cons_self l emp)
    simp only [scanLoop, if_pos hl]
    exact ih r fun x hx => hemp x (List.mem_cons_of_mem l hx)

/-- The scan loop never touches the engine, database, updated, markdown
or error fields. -/
theorem scanLoop_frame (path : String) :
    ∀ (ls : List String) (r : ResultsData),
      (scanLoop path ls r).Engine = r.Engine ∧
      (scanLoop path ls r).Database = r.Database ∧
      (scanLoop path ls r).Updated = r.Updated ∧
      (scanLoop path ls r).MarkDown = r.MarkDown ∧
      (scanLoop path ls r).Error = r.Error := by
  intro ls
  induction ls with
  | nil => intro r; exact ⟨rfl, rfl, rfl, rfl, rfl⟩
  | cons l ls ih =>
    intro r
    by_cases he : l = ""
    · simp only [scanLoop, if_pos he]; exact ih r
    · by_cases hc : gContains l "- Ok" = true
      · simp [scanLoop, if_neg he, hc]
      · simp only [scanLoop, if_neg he, hc, Bool.false_eq_true, if_false]
        exact ih _

/-- The state reached after the last infection line standing before the
break point (or before the transcript's end): infected is set and the
result is the last qualifying line, marker-stripped and trimmed. -/
theorem scanLoop_last_qual (path : String) (pre emp tail : List String)
    (q : String) (r : ResultsData)
    (hpre : ∀ l ∈ pre, gContains l "- Ok" = false)
    (hq1 : q ≠ "") (hq2 : gContains q "- Ok" = false)
    (hemp : ∀ l ∈ emp, l = "")
    (htail : tail = [] ∨ ∃ m t2, tail = m :: t2 ∧ gContains m "- Ok" = true) :
    (scanLoop path (pre ++ q :: (emp ++ tail)) r).Infected = true ∧
    (scanLoop path (pre ++ q :: (emp ++ tail)) r).Result =
      gTrimSpace (gTrimPref q (path ++ " - ")) := by
  rw [scanLoop_no_marker path pre (q :: (emp ++ tail)) r hpre]
  simp only [scanLoop, if_neg hq1, hq2, Bool.false_eq_true, if_false]
  rcases htail with htail | ⟨m, t2, htail, hm⟩
  · subst htail
    rw [List.append_nil, scanLoop_empties path emp _ hemp]
    exact ⟨rfl, rfl⟩
  · subst htail
    rw [scanLoop_clean path m hm emp t2 _ (fun x hx => Or.inl (hemp x hx))]
    exact ⟨rfl, rfl⟩

/-! ### Helper lemmas about the metadata loop -/

/-- One metadata step never touches the verdict fields. -/
theorem baseStep_frame (l : String) (r : ResultsData) :
    (baseStep l r).Infected = r.Infected ∧
    (baseStep l r).Result = r.Result ∧
    (baseStep l r).Updated = r.Updated ∧
    (baseStep l r).MarkDown = r.MarkDown ∧
    (baseStep l r).Error = r.Error := by
  by_cases he : l = ""
  · simp [baseStep, if_pos he]
  · by_cases h1 : gContains l "Core engine:" = true <;>
      by_cases h2 : gContains l "Virus base records:" = true <;>
      simp [baseStep, he, h1, h2]

/-- The metadata loop never touches the verdict fields. -/
theorem baseLoop_frame :
    ∀ (ls : List String) (r : ResultsData),
      (baseLoop ls r).Infected = r.Infected ∧
      (baseLoop ls r).Result = r.Result ∧
      (baseLoop ls r).Updated = r.Updated ∧
      (baseLoop ls r).MarkDown = r.MarkDown ∧
      (baseLoop ls r).Error = r.Error := by
  intro ls
  induction ls with
  | nil => intro r; exact ⟨rfl, rfl, rfl, rfl, rfl⟩
  | cons l ls ih =>
    intro r
    have hs := baseStep_frame l r
    have hl := ih (baseStep l r)
    simp only [baseLoop]
    exact ⟨hl.1.trans hs.1, hl.2.1.trans hs.2.1, hl.2.2.1.trans hs.2.2.1,
      hl.2.2.2.1.trans hs.2.2.2.1, hl.2.2.2.2.trans hs.2.2.2.2⟩

/-- The metadata loop splits across list append. -/
theorem baseLoop_append :
    ∀ (l1 l2 : List String) (r : ResultsData),
      baseLoop (l1 ++ l2) r = baseLoop l2 (baseLoop l1 r) := by
  intro l1
  induction l1 with
  | nil => intro l2 r; rfl
  | cons l l1 ih => intro l2 r; simp only [List.cons_append, baseLoop]; exact ih l2 _

/-- A step on a line not containing "Core engine:" keeps the engine field. -/
theorem baseStep_engine_skip (l : String) (r : ResultsData)
    (h : gContains l "Core engine:" = false) :
    (baseStep l r).Engine = r.Engine := by
  by_cases he : l = ""
  · simp [baseStep, he]
  · by_cases h2 : gContains l "Virus base records:" = true <;>
      simp [baseStep, he, h, h2]

/-- Lines without "Core engine:" keep the engine field across the loop. -/
theorem baseLoop_engine_skip :
    ∀ (ls : List String) (r : ResultsData),
      (∀ l ∈ ls, gContains l "Core engine:" = false) →
      (baseLoop ls r).Engine = r.Engine := by
  intro ls
  induction ls with
  | nil => intro r _; rfl
  | cons l ls ih =>
    intro r h
    simp only [baseLoop]
    rw [ih _ fun x hx => h x (List.mem_cons_of_mem l hx),
      baseStep_engine_skip l r (h l (List.mem_cons_self l ls))]

/-- A non-empty line containing "Core engine:" sets the engine field to
the line with a leading "Core engine:" removed, trimmed. -/
theorem baseStep_engine_set (l : String) (r : ResultsData)
    (hne : l ≠ "") (h : gContains l "Core engine:" = true) :
    (baseStep l r).Engine = gTrimSpace (gTrimPref l "Core engine:") := by
  by_cases h2 : gContains l "Virus base records:" = true <;>
    simp [baseStep, hne, h, h2]

/-- A step on a line not containing "Virus base records:" keeps the
database field. -/
theorem baseStep_database_skip (l : String) (r : ResultsData)
    (h : gContains l "Virus base records:" = false) :
    (baseStep l r).Database = r.Database := by
  by_cases he : l = ""
  · simp [baseStep, he]
  · by_cases h1 : gContains l "Core engine:" = true <;>
      simp [baseStep, he, h, h1]

/-- Lines without "Virus base records:" keep the database field across
the loop. -/
theorem baseLoop_database_skip :
    ∀ (ls : List String) (r : ResultsData),
      (∀ l ∈ ls, gContains l "Virus base records:" = false) →
      (baseLoop ls r).Database = r.Database := by
  intro ls
  induction ls with
  | nil => intro r _; rfl
  | cons l ls ih =>
    intro r h
    simp only [baseLoop]
    rw [ih _ fun x hx => h x (List.mem_cons_of_mem l hx),
      baseStep_database_skip l r (h l (List.mem_cons_self l ls))]

/-- A non-empty line containing "Virus base records:" sets the database
field to the line with a leading "Virus base records:" removed, trimmed. -/
theorem baseStep_database_set (l : String) (r : ResultsData)
    (hne : l ≠ "") (h : gContains l "Virus base records:" = true) :
    (baseStep l r).Database = gTrimSpace (gTrimPref l "Virus base records:") := by
  by_cases h1 : gContains l "Core engine:" = true <;>
    simp [baseStep, hne, h, h1]

/-! ### Scenario checks from the specification -/

example : splitNL "a - Ok\nb" = ["a - Ok", "b"] := by decide
example : splitNL "" = [""] := by decide
example : splitNL "a\n" = ["a", ""] := by decide
example : gContains "x - Ok (clean)" "- Ok" = true := by decide
example : gContains "virus" "- Ok" = false := by decide
example : gTrimSpace (gTrimPref "/tmp/x - Trojan.Test" ("/tmp/x" ++ " - ")) = "Trojan.Test" := by decide
example :
    ParseDrWEBOutput "/tmp/x" "v" "u" "/tmp/x - Trojan.Test\n" "Core engine: 7.0.1\nVirus base records: 99\n" none =
    { Infected := true, Result := "Trojan.Test", Engine := "7.0.1", Database := "99", Updated := "u" } := by decide
example :
    ParseDrWEBOutput "/tmp/x" "v" "u" "/tmp/x - Ok\n" "" none =
    { Infected := false, Engine := "v", Updated := "u" } := by decide

/-! ### Claim C1 -/

/-- Counterexample to claim C1 as stated: in the transcript
"x - Ok\nvirus" the non-empty line "virus" lacks the clean marker, yet
the parser reports not infected, because the loop breaks at the earlier
"- Ok" line and never reaches the later one. -/
theorem C1_counterexample :
    ("virus" ∈ splitNL "x - Ok\nvirus" ∧ "virus" ≠ "" ∧
      gContains "virus" "- Ok" = false) ∧
    (ParseDrWEBOutput "x" "" "" "x - Ok\nvirus" "" none).Infected = false := by
  decide

/-- Claim C1 (amended): for every scan transcript in which at least one
non-empty line lacking "- Ok" occurs before the first line containing
"- Ok" (or anywhere, when no line contains the marker), the parser with
nil scan error returns infected true, and the result equals the last such
qualifying line before the break point, with the `path ++ " - "` leading
marker stripped and whitespace trimmed. -/
theorem C1_amended_thm (p ev up bi out : String) (pre emp rest : List String)
    (q : String)
    (hsplit : splitNL out = pre ++ q :: (emp ++ rest))
    (hpre : ∀ l ∈ pre, gContains l "- Ok" = false)
    (hq1 : q ≠ "") (hq2 : gContains q "- Ok" = false)
    (hemp : ∀ l ∈ emp, l = "")
    (hrest : rest = [] ∨ ∃ m t2, rest = m :: t2 ∧ gContains m "- Ok" = true) :
    (ParseDrWEBOutput p ev up out bi none).Infected = true ∧
    (ParseDrWEBOutput p ev up out bi none).Result =
      gTrimSpace (gTrimPref q (p ++ " - ")) := by
  have hscan := scanLoop_last_qual p pre emp rest q
    { Infected := false, Engine := ev, Updated := up } hpre hq1 hq2 hemp hrest
  simp only [ParseDrWEBOutput]
  refine ⟨?_, ?_⟩
  · rw [(baseLoop_frame _ _).1, hsplit]
    exact hscan.1
  · rw [(baseLoop_frame _ _).2.1, hsplit]
    exact hscan.2

/-- Witness for the amended claim C1 at a concrete transcript with two
infection lines: the last one wins. -/
theorem C1_amended_witness :
    (ParseDrWEBOutput "x" "" "" "x - Trojan.A\nx - Trojan.B" "" none).Infected = true ∧
    (ParseDrWEBOutput "x" "" "" "x - Trojan.A\nx - Trojan.B" "" none).Result = "Trojan.B" := by
  have h := C1_amended_thm "x" "" "" "" "x - Trojan.A\nx - Trojan.B"
    ["x - Trojan.A"] [] [] "x - Trojan.B" (by decide) (by decide) (by decide)
    (by decide) (by decide) (Or.inl rfl)
  exact ⟨h.1, h.2.trans (by decide)⟩

/-! ### Claim C2 -/

/-- Claim C2: a transcript whose clean-marker line is preceded only by
empty lines or further marker lines parses as not infected, and the lines
after a clean-marker line cannot change any field of the result. -/
theorem C2_thm :
    (∀ (p ev up bi out : String) (pre : List String) (m : String)
        (suf : List String),
        splitNL out = pre ++ m :: suf →
        (∀ l ∈ pre, l = "" ∨ gContains l "- Ok" = true) →
        gContains m "- Ok" = true →
        (ParseDrWEBOutput p ev up out bi none).Infected = false) ∧
    (∀ (p ev up bi out out2 : String) (pre : List String) (m : String)
        (suf suf2 : List String),
        splitNL out = pre ++ m :: suf →
        splitNL out2 = pre ++ m :: suf2 →
        gContains m "- Ok" = true →
        ParseDrWEBOutput p ev up out bi none =
          ParseDrWEBOutput p ev up out2 bi none) := by
  constructor
  · intro p ev up bi out pre m suf hsplit hpre hm
    simp only [ParseDrWEBOutput]
    rw [(baseLoop_frame _ _).1, hsplit, scanLoop_clean p m hm pre suf _ hpre]
  · intro p ev up bi out out2 pre m suf suf2 hsplit hsplit2 hm
    simp only [ParseDrWEBOutput]
    rw [hsplit, hsplit2, scanLoop_marker_stable p m hm pre suf suf2]

/-- Witness for claim C2: a clean transcript parses as not infected, and
changing everything after the marker line leaves the result identical. -/
theorem C2_witness :
    (ParseDrWEBOutput "x" "e" "u" "x - Ok\nzzz" "b" none).Infected = false ∧
    ParseDrWEBOutput "x" "e" "u" "x - Ok\nzzz" "b" none =
      ParseDrWEBOutput "x" "e" "u" "x - Ok\nabc" "b" none := by
  refine ⟨C2_thm.1 "x" "e" "u" "b" "x - Ok\nzzz" [] "x - Ok" ["zzz"]
      (by decide) (by decide) (by decide),
    C2_thm.2 "x" "e" "u" "b" "x - Ok\nzzz" "x - Ok\nabc" [] "x - Ok" ["zzz"] ["abc"]
      (by decide) (by decide) (by decide)⟩

/-! ### Claim C3 -/

/-- Claim C3: with a non-nil scan error the parser ignores both
transcripts entirely; the error message is "ScanEngine is not available"
exactly when the error text is "exit status 119" and the error's own text
otherwise, and infected is never set. -/
theorem C3_thm (p ev up o b o2 b2 msg : String) :
    ParseDrWEBOutput p ev up o b (some msg) =
      ParseDrWEBOutput p ev up o2 b2 (some msg) ∧
    (ParseDrWEBOutput p ev up o b (some msg)).Error =
      (if msg = "exit status 119" then "ScanEngine is not available" else msg) ∧
    (ParseDrWEBOutput p ev up o b (some msg)).Infected = false := by
  by_cases h : msg = "exit status 119" <;> simp [ParseDrWEBOutput, h]

/-! ### Claim C4 -/

/-- Claim C4 evaluation at the failing input: although `assert` itself
treats "exit status 13" as non-fatal, `AvScan` hands the scan error to
the parser unchanged, so a threat detection signalled by exit status 13
reaches `ParseDrWEBOutput` with a non-nil error and the pipeline reports
an error result with infected false instead of parsing the threat line. -/
theorem C4_bug_eval :
    assertIsFatal (some "exit status 13") = false ∧
    (avScanScanPhase ("/malware/x - Trojan.Test\n", some "exit status 13")
        ("/malware/x - Trojan.Test\n", some "exit status 13")).1.2 =
      some "exit status 13" ∧
    AvScanModel "/malware/x" "7.0" "20180101"
        ("/malware/x - Trojan.Test\n", some "exit status 13")
        ("/malware/x - Trojan.Test\n", some "exit status 13") "" =
      { Error := "exit status 13" } := by
  decide

/-! ### Claim C5 -/

/-- Counterexample to claim C5 as stated: a line containing
"Core engine:" other than as a leading marker sets the engine field to
the whole line (Go TrimPrefix strips leading occurrences only), not to
the remainder after the marker. -/
theorem C5_counterexample :
    (gContains "x Core engine: 7.0.1" "Core engine:" = true ∧
      "x Core engine: 7.0.1" ∈ splitNL "x Core engine: 7.0.1") ∧
    (ParseDrWEBOutput "p" "" "" "" "x Core engine: 7.0.1" none).Engine =
      "x Core engine: 7.0.1" ∧
    ("x Core engine: 7.0.1" : String) ≠ "7.0.1" := by
  decide

/-- Claim C5 (amended): each non-empty metadata line containing
"Core engine:" sets the engine field to the line with a leading
"Core engine:" removed when the marker occurs as a leading segment (the
whole line otherwise), trimmed; likewise "Virus base records:" for the
database field; the last occurrence of each pattern wins; lines matching
neither pattern leave both fields unchanged; and the concrete transcript
of the claim yields engine "7.0.1" and database "123456". -/
theorem C5_amended_thm :
    (∀ (p ev up out bi : String) (pre post : List String) (ln : String),
        splitNL bi = pre ++ ln :: post → ln ≠ "" →
        gContains ln "Core engine:" = true →
        (∀ l ∈ post, gContains l "Core engine:" = false) →
        (ParseDrWEBOutput p ev up out bi none).Engine =
          gTrimSpace (gTrimPref ln "Core engine:")) ∧
    (∀ (p ev up out bi : String) (pre post : List String) (ln : String),
        splitNL bi = pre ++ ln :: post → ln ≠ "" →
        gContains ln "Virus base records:" = true →
        (∀ l ∈ post, gContains l "Virus base records:" = false) →
        (ParseDrWEBOutput p ev up out bi none).Database =
          gTrimSpace (gTrimPref ln "Virus base records:")) ∧
    (∀ (p ev up out bi : String),
        (∀ l ∈ splitNL bi, gContains l "Core engine:" = false ∧
          gContains l "Virus base records:" = false) →
        (ParseDrWEBOutput p ev up out bi none).Engine = ev ∧
        (ParseDrWEBOutput p ev up out bi none).Database = "") ∧
    ((ParseDrWEBOutput "p" "" "" ""
        "Core engine: 7.0.1\nVirus base records: 123456" none).Engine = "7.0.1" ∧
     (ParseDrWEBOutput "p" "" "" ""
        "Core engine: 7.0.1\nVirus base records: 123456" none).Database = "123456") := by
  refine ⟨?_, ?_, ?_, by decide⟩
  · intro p ev up out bi pre post ln hsplit hne hc hlast
    simp only [ParseDrWEBOutput]
    rw [hsplit, baseLoop_append]
    simp only [baseLoop]
    rw [baseLoop_engine_skip post _ hlast, baseStep_engine_set ln _ hne hc]
  · intro p ev up out bi pre post ln hsplit hne hc hlast
    simp only [ParseDrWEBOutput]
    rw [hsplit, baseLoop_append]
    simp only [baseLoop]
    rw [baseLoop_database_skip post _ hlast, baseStep_database_set ln _ hne hc]
  · intro p ev up out bi h
    simp only [ParseDrWEBOutput]
    constructor
    · rw [baseLoop_engine_skip _ _ fun l hl => (h l hl).1,
        (scanLoop_frame p _ _).1]
    · rw [baseLoop_database_skip _ _ fun l hl => (h l hl).2,
        (scanLoop_frame p _ _).2.1]

/-- Witness for the amended claim C5: the last "Core engine:" line,
surrounded by junk, determines the engine field. -/
theorem C5_amended_witness :
    (ParseDrWEBOutput "p" "" "" "" "junk\nCore engine: 7.0.1\ntail" none).Engine =
      "7.0.1" := by
  have h := C5_amended_thm.1 "p" "" "" "" "junk\nCore engine: 7.0.1\ntail"
    ["junk"] ["tail"] "Core engine: 7.0.1" (by decide) (by decide) (by decide)
    (by decide)
  exact h.trans (by decide)

/-! ### Claim C6 -/

/-- Claim C6: the license-query output is classified expired when it
contains "No license", valid when it otherwise contains "expires", and
conservatively expired in every other case. -/
theorem C6_thm (lOut : String) :
    (gContains lOut "No license" = true → didLicenseExpire lOut = true) ∧
    (gContains lOut "No license" = false → gContains lOut "expires" = true →
      didLicenseExpire lOut = false) ∧
    (gContains lOut "No license" = false → gContains lOut "expires" = false →
      didLicenseExpire lOut = true) := by
  refine ⟨fun h => ?_, fun h1 h2 => ?_, fun h1 h2 => ?_⟩ <;>
    simp [didLicenseExpire, *]

/-- Witness for claim C6: one representative output per branch of the
classification. -/
theorem C6_witness :
    didLicenseExpire "No license found" = true ∧
    didLicenseExpire "License expires 2030-01-01" = false ∧
    didLicenseExpire "unexpected output" = true :=
  ⟨(C6_thm "No license found").1 (by decide),
   (C6_thm "License expires 2030-01-01").2.1 (by decide) (by decide),
   (C6_thm "unexpected output").2.2 (by decide) (by decide)⟩

/-! ### Claim C7 -/

/-- Counterexample to claim C7 as stated: a first scan failure in the
"no license" mode is still retried — the scan command runs twice, not
once, because the retry at src/scan.go:106 tests only that the error is
non-nil. -/
theorem C7_counterexample :
    (avScanScanPhase ("", some "No license") ("", some "No license")).2 = 2 ∧
    (avScanScanPhase ("", some "No license") ("", some "No license")).2 ≠ 1 := by
  decide

/-- Claim C7 (amended): a failing first scan invocation is retried
exactly once for EVERY failure, the no-license mode included; a
successful first invocation is not retried; no input causes more than
two invocations. -/
theorem C7_amended_thm (first second : String × Option String) :
    (first.2 = none → avScanScanPhase first second = (first, 1)) ∧
    (first.2 ≠ none → avScanScanPhase first second = (second, 2)) ∧
    (avScanScanPhase first second).2 ≤ 2 := by
  obtain ⟨out, err⟩ := first
  cases err with
  | none =>
    exact ⟨fun _ => rfl, fun h => absurd rfl h, by show (1 : Nat) ≤ 2; decide⟩
  | some e =>
    exact ⟨fun h => by simp at h, fun _ => rfl, by show (2 : Nat) ≤ 2; decide⟩

/-- Witness for the amended claim C7: a successful first attempt runs
once; a failing first attempt runs twice and hands on the second
attempt's outcome. -/
theorem C7_amended_witness :
    avScanScanPhase ("scan ok", none) ("x", none) = (("scan ok", none), 1) ∧
    avScanScanPhase ("", some "exit status 1") ("ok2", none) = (("ok2", none), 2) :=
  ⟨(C7_amended_thm ("scan ok", none) ("x", none)).1 rfl,
   (C7_amended_thm ("", some "exit status 1") ("ok2", none)).2.1 (by simp)⟩

/-! ### Claim C8 -/

/-- Claim C8: with a license-query output classified valid the renewal
sub-command is not invoked, and two consecutive License Guard runs over
valid outputs invoke no renewal at all. -/
theorem C8_thm (o o2 : String)
    (h1 : gContains o "No license" = false) (h2 : gContains o "expires" = true)
    (h3 : gContains o2 "No license" = false) (h4 : gContains o2 "expires" = true) :
    licenseGuardRenewals o = 0 ∧ licenseGuardTwiceRenewals o o2 = 0 := by
  have e1 : didLicenseExpire o = false := by simp [didLicenseExpire, h1, h2]
  have e2 : didLicenseExpire o2 = false := by simp [didLicenseExpire, h3, h4]
  simp [licenseGuardRenewals, licenseGuardTwiceRenewals, e1, e2]

/-- Witness for claim C8 on a concrete valid license output. -/
theorem C8_witness :
    licenseGuardRenewals "License expires 2030-01-01" = 0 ∧
    licenseGuardTwiceRenewals "License expires 2030-01-01"
      "License expires 2030-01-01" = 0 :=
  C8_thm "License expires 2030-01-01" "License expires 2030-01-01"
    (by decide) (by decide) (by decide) (by decide)

/-! ### Claim C9 -/

/-- Claim C9: the clean test is a substring match anywhere in the line
and breaking on it does not reset earlier state: whenever a non-empty
line lacking "- Ok" precedes the first line containing "- Ok" (the last
such qualifying line being `q`), the parser reports infected true with
the result extracted from `q`. -/
theorem C9_thm (p ev up bi out : String) (pre emp rest : List String)
    (q m : String)
    (hsplit : splitNL out = pre ++ q :: (emp ++ m :: rest))
    (hpre : ∀ l ∈ pre, gContains l "- Ok" = false)
    (hq1 : q ≠ "") (hq2 : gContains q "- Ok" = false)
    (hemp : ∀ l ∈ emp, l = "")
    (hm : gContains m "- Ok" = true) :
    (ParseDrWEBOutput p ev up out bi none).Infected = true ∧
    (ParseDrWEBOutput p ev up out bi none).Result =
      gTrimSpace (gTrimPref q (p ++ " - ")) := by
  have hscan := scanLoop_last_qual p pre emp (m :: rest) q
    { Infected := false, Engine := ev, Updated := up } hpre hq1 hq2 hemp
    (Or.inr ⟨m, rest, rfl, hm⟩)
  simp only [ParseDrWEBOutput]
  refine ⟨?_, ?_⟩
  · rw [(baseLoop_frame _ _).1, hsplit]
    exact hscan.1
  · rw [(baseLoop_frame _ _).2.1, hsplit]
    exact hscan.2

/-- Witness for claim C9: an infection line followed by a line whose
"- Ok" occurs mid-line; junk after the marker line is ignored and the
earlier verdict survives. -/
theorem C9_witness :
    (ParseDrWEBOutput "x" "" "" "x - Trojan\nx - Ok (clean)\ngarbage" "" none).Infected = true ∧
    (ParseDrWEBOutput "x" "" "" "x - Trojan\nx - Ok (clean)\ngarbage" "" none).Result = "Trojan" := by
  have h := C9_thm "x" "" "" "" "x - Trojan\nx - Ok (clean)\ngarbage"
    [] [] ["garbage"] "x - Trojan" "x - Ok (clean)" (by decide) (by decide)
    (by decide) (by decide) (by decide) (by decide)
  exact ⟨h.1, h.2.trans (by decide)⟩

/-! ### Claim C10 -/

/-- Claim C10: with a non-nil scan error every field of the result other
than Error is at its Go zero value. -/
theorem C10_thm (p ev up o b msg : String) :
    (ParseDrWEBOutput p ev up o b (some msg)).Infected = false ∧
    (ParseDrWEBOutput p ev up o b (some msg)).Result = "" ∧
    (ParseDrWEBOutput p ev up o b (some msg)).Engine = "" ∧
    (ParseDrWEBOutput p ev up o b (some msg)).Database = "" ∧
    (ParseDrWEBOutput p ev up o b (some msg)).Updated = "" ∧
    (ParseDrWEBOutput p ev up o b (some msg)).MarkDown = "" := by
  by_cases h : msg = "exit status 119" <;> simp [ParseDrWEBOutput, h]
